import Mathlib

/-!
Shallow embedding of the deduplication-and-merge store of the
`ai-gym-timetable-extractor` repository, together with its parser,
aggregator, CLI loading step and singleton construction protocol.

Sources embedded:
* `src/ai_gym_timetable_extractor/models.py` — `GymClass`, `GymSchedule`
  (pydantic validation of a schedule batch).
* `src/ai_gym_timetable_extractor/database.py` — `GymScheduleDatabase`:
  the SQLite table `gym_classes` with `UNIQUE(date, timeslot, activity)`,
  `load_from_json` (`INSERT OR REPLACE` loop), the query methods, and the
  singleton `__new__`/`__init__`/`get_database`/`reset_instance` protocol.
* `src/ai_gym_timetable_extractor/parser.py` — `GymScheduleParser.parse`.
* `src/ai_gym_timetable_extractor/aggregator.py` —
  `GymScheduleAggregator.aggregate_json_files`.
* `src/ai_gym_timetable_extractor/cli.py` — `load_aggregated_results_to_db`.

Modelling conventions: SQLite TEXT columns are `String` (SQLite's default
BINARY collation on UTF-8 text coincides with codepoint order, which is the
order of `String.lt`); the table is the list of its rows in rowid order
(`INSERT OR REPLACE` deletes the conflicting row and appends a fresh row,
since `id` is `AUTOINCREMENT` and never supplied); `datetime.now()` is an
explicit `now : String` parameter; Python `None` is `Option.none`; a raised
Python exception is an `Except.error`.
-/

namespace GymTimetable

/-- `models.GymClass` (pydantic model): one gym class.  `vacancy` is a Python
`int`; `modified_at` is `Optional[datetime]`, kept as an ISO-8601 string. -/
structure GymClass where
  date : String
  day_of_week : String
  timeslot : String
  activity : String
  venue : String
  class_type : String
  vacancy : Int
  modified_at : Option String
deriving DecidableEq, Repr

/-- One entry of the `classes` array of a JSON document before pydantic
validation.  A required field that is missing or has an uncoercible type is
`none`.  For `modified_at` (optional with `default_factory=datetime.now`):
`none` means the field is absent from the JSON, `some none` means an explicit
JSON `null`, `some (some t)` a timestamp. -/
structure RawEntry where
  date : Option String
  day_of_week : Option String
  timeslot : Option String
  activity : Option String
  venue : Option String
  class_type : Option String
  vacancy : Option Int
  modified_at : Option (Option String)
deriving DecidableEq, Repr

/-- Pydantic validation of one `GymClass(**entry)`: every required field must
be present; an absent `modified_at` is filled by `default_factory=datetime.now`
(the load-time clock `now`). -/
def validateEntry (now : String) (e : RawEntry) : Option GymClass :=
  match e.date, e.day_of_week, e.timeslot, e.activity, e.venue, e.class_type, e.vacancy with
  | some d, some dow, some ts, some act, some v, some ct, some vac =>
      some { date := d, day_of_week := dow, timeslot := ts, activity := act,
             venue := v, class_type := ct, vacancy := vac,
             modified_at := match e.modified_at with
               | some m => m
               | none => some now }
  | _, _, _, _, _, _, _ => none

/-- `GymSchedule(**data)`: pydantic validates every entry of the `classes`
array; one bad entry fails the whole document (all-or-nothing). -/
def validateSchedule (now : String) : List RawEntry → Option (List GymClass)
  | [] => some []
  | e :: es =>
    match validateEntry now e, validateSchedule now es with
    | some c, some cs => some (c :: cs)
    | _, _ => none

/-- A row of the SQLite table `gym_classes` (the `id` rowid is kept implicit:
the table is a list in rowid order). -/
structure StoredRow where
  date : String
  day_of_week : String
  timeslot : String
  activity : String
  venue : String
  class_type : String
  vacancy : Int
  modified_at : String
deriving DecidableEq, Repr

/-- The `gym_classes` table, rows in rowid order. -/
abbrev Table := List StoredRow

/-- The identity key `(date, timeslot, activity)` of an incoming record
(the `UNIQUE(date, timeslot, activity)` constraint of the schema). -/
def classKey (c : GymClass) : String × String × String :=
  (c.date, c.timeslot, c.activity)

/-- The identity key of a stored row. -/
def rowKey (r : StoredRow) : String × String × String :=
  (r.date, r.timeslot, r.activity)

/-- The row written for one record by the `INSERT OR REPLACE` statement of
`load_from_json`: `modified_at` is
`gym_class.modified_at.isoformat() if gym_class.modified_at else datetime.now().isoformat()`. -/
def toRow (now : String) (c : GymClass) : StoredRow :=
  { date := c.date, day_of_week := c.day_of_week, timeslot := c.timeslot,
    activity := c.activity, venue := c.venue, class_type := c.class_type,
    vacancy := c.vacancy,
    modified_at := match c.modified_at with
      | some t => t
      | none => now }

/-- One `INSERT OR REPLACE INTO gym_classes ...` execution: any row violating
`UNIQUE(date, timeslot, activity)` against the new row is deleted and the new
row is inserted with a fresh autoincrement rowid (hence at the end). -/
def insertOrReplace (now : String) (t : Table) (c : GymClass) : Table :=
  t.filter (fun r => decide (rowKey r ≠ classKey c)) ++ [toRow now c]

/-- The upsert loop of `load_from_json` over the validated `schedule.classes`,
in input order. -/
def applyBatch (now : String) (t : Table) (cs : List GymClass) : Table :=
  cs.foldl (insertOrReplace now) t

/-- Errors that `load_from_json` can raise to its caller. -/
inductive LoadError
  | fileNotFound
  | validationError
deriving DecidableEq, Repr

/-- `GymScheduleDatabase.load_from_json`, on the parsed JSON document `data`
(its `classes` array) against table state `t`.  Pydantic validation
(`GymSchedule(**data)`) runs before any SQL executes; on success the upsert
loop runs and the method returns `records_loaded`, incremented once per
record of the batch.  The pair is (returned value or raised error, table
state afterwards). -/
def load_from_json (now : String) (data : List RawEntry) (t : Table) :
    Except LoadError Nat × Table :=
  match validateSchedule now data with
  | none => (.error .validationError, t)
  | some classes => (.ok classes.length, applyBatch now t classes)

/-! ### Query surface of `GymScheduleDatabase` -/

/-- Strict lexicographic comparison of character lists by codepoint: the
BINARY collation SQLite applies to TEXT (byte order on UTF-8 agrees with
codepoint order). -/
def charListLT : List Char → List Char → Bool
  | _, [] => false
  | [], _ :: _ => true
  | a :: as, b :: bs =>
    if a.toNat < b.toNat then true
    else if a.toNat = b.toNat then charListLT as bs
    else false

/-- Strict BINARY-collation comparison of two TEXT values. -/
def strLT (a b : String) : Bool :=
  charListLT a.data b.data

/-- Non-strict BINARY-collation comparison of two TEXT values. -/
def strLE (a b : String) : Bool :=
  strLT a b || decide (a = b)

/-- The `ORDER BY date, timeslot` comparison between rows, as the Boolean
test SQLite performs. -/
def rowLEb (a b : StoredRow) : Bool :=
  strLT a.date b.date || (decide (a.date = b.date) && strLE a.timeslot b.timeslot)

/-- The `ORDER BY date, timeslot` order between rows. -/
def rowLE (a b : StoredRow) : Prop :=
  rowLEb a b = true

instance : DecidableRel rowLE := fun a b =>
  inferInstanceAs (Decidable (_ = true))

/-- `get_all_classes`: `SELECT * FROM gym_classes ORDER BY date, timeslot`.
SQLite leaves the relative order of equal sort keys unspecified; the model
fixes the stable `List.insertionSort` as the concrete choice. -/
def get_all_classes (t : Table) : Table :=
  List.insertionSort rowLE t

/-- Whether `pat` is a prefix of `s` (character lists). -/
def listStartsWith : List Char → List Char → Bool
  | [], _ => true
  | _ :: _, [] => false
  | a :: as, b :: bs => decide (a = b) && listStartsWith as bs

/-- Whether `pat` occurs as a contiguous sublist of `s`. -/
def listContainsSub (pat : List Char) : List Char → Bool
  | [] => pat.isEmpty
  | b :: bs => listStartsWith pat (b :: bs) || listContainsSub pat bs

/-- SQLite default ASCII case folding: `LIKE` treats `A`–`Z` as equal to
`a`–`z` and is case-sensitive beyond ASCII. -/
def asciiLowerChar (c : Char) : Char :=
  if 65 ≤ c.toNat && c.toNat ≤ 90 then Char.ofNat (c.toNat + 32) else c

/-- Fuel-indexed evaluation of SQLite's `LIKE` pattern matching (default
behaviour: no `ESCAPE` clause, ASCII case folding): `%` matches any
possibly-empty run of characters, `_` matches exactly one character, and
any other pattern character matches one text character up to ASCII case.
The fuel argument only makes the recursion structural; by
`likeMatchFuel_congr`, every fuel above `pattern.length + text.length`
computes the same value. -/
def likeMatchFuel : Nat → List Char → List Char → Bool
  | 0, _, _ => false
  | _ + 1, [], t => t.isEmpty
  | fuel + 1, p :: ps, t =>
    if p = '%' then
      match t with
      | [] => likeMatchFuel fuel ps []
      | c :: ts => likeMatchFuel fuel ps (c :: ts) || likeMatchFuel fuel (p :: ps) ts
    else
      match t with
      | [] => false
      | c :: ts =>
        if p = '_' then likeMatchFuel fuel ps ts
        else decide (asciiLowerChar p = asciiLowerChar c) && likeMatchFuel fuel ps ts

/-- `text LIKE pattern` in SQLite (default collation and case folding). -/
def likeMatch (pattern text : List Char) : Bool :=
  likeMatchFuel (pattern.length + text.length + 1) pattern text

/-- The WHERE test of `get_classes_by_activity`:
`activity LIKE '%' || a || '%'`, with the caller-supplied `a` spliced
verbatim into the bound pattern — any `%`/`_` inside `a` keeps its `LIKE`
wildcard meaning. -/
def likeContains (text pattern : String) : Bool :=
  likeMatch ('%' :: pattern.data ++ ['%']) text.data

/-- `get_classes_by_activity`:
`SELECT * FROM gym_classes WHERE activity LIKE '%'||a||'%' ORDER BY date, timeslot`. -/
def get_classes_by_activity (a : String) (t : Table) : Table :=
  List.insertionSort rowLE (t.filter (fun r => likeContains r.activity a))

/-! ### Parser and aggregator -/

/-- What `GymScheduleParser.parse` finds in one file. `unreadable` covers an
unopenable file or invalid JSON (`open`/`json.load` raise inside the `try`);
`withoutClassesKey` is a JSON document with no `"classes"` key;
`withClasses` carries the entries of the `classes` array. -/
inductive FileContent
  | unreadable
  | withoutClassesKey
  | withClasses (entries : List RawEntry)
deriving Repr

/-- Python exceptions surfaced by the embedded fragments. -/
inductive PyExc
  | typeError
  | attributeError
deriving DecidableEq, Repr

/-- `GymScheduleParser.parse`: inside `try`, failures of `open`, `json.load`
or `GymSchedule(**data)` jump to `except`, which prints the error and falls
off the end of the function — returning Python `None` (`none` here).  A
readable document without a `"classes"` key returns the empty list. -/
def GymScheduleParser_parse (now : String) : FileContent → Option (List GymClass)
  | .unreadable => none
  | .withoutClassesKey => some []
  | .withClasses entries =>
    match validateSchedule now entries with
    | some cs => some cs
    | none => none

/-- `str.endswith(".json")`. -/
def endsWithJson (name : String) : Bool :=
  listStartsWith ".json".data.reverse name.data.reverse

/-- Name order on directory entries, for `sorted(os.listdir(directory))`. -/
def fileNameLE (a b : String × FileContent) : Prop := strLE a.1 b.1 = true

instance : DecidableRel fileNameLE := fun a b =>
  inferInstanceAs (Decidable (_ = true))

/-- `GymScheduleAggregator.aggregate_json_files` over a directory listing
(filename, content): iterates `sorted(os.listdir(directory))`, skips
non-`.json` names, and runs `all_classes.extend(self.parser.parse(path))`.
When `parse` returned `None`, `extend(None)` raises `TypeError`, which
propagates out of the method. -/
def aggregate_json_files (now : String) (files : List (String × FileContent)) :
    Except PyExc (List GymClass) :=
  (List.insertionSort fileNameLE files).foldl
    (fun acc f =>
      match acc with
      | .error e => .error e
      | .ok allClasses =>
        if endsWithJson f.1 then
          match GymScheduleParser_parse now f.2 with
          | some cs => .ok (allClasses ++ cs)
          | none => .error .typeError
        else .ok allClasses)
    (.ok [])

/-! ### Singleton construction protocol of `GymScheduleDatabase` -/

/-- The Python object held in `GymScheduleDatabase._instance`: an allocation
identity plus the `db_path` attribute (`none` until `__init__` sets it). -/
structure DbInstance where
  objId : Nat
  db_path : Option String
deriving DecidableEq, Repr

/-- The class-level state: `_instance`, `_initialized`, plus an allocation
counter modelling object identity of `super().__new__(cls)`. -/
structure SingletonState where
  instanceSlot : Option DbInstance
  initializedFlag : Bool
  nextObjId : Nat
deriving DecidableEq, Repr

/-- A fresh process: `_instance = None`, `_initialized = False`. -/
def initialSingletonState : SingletonState :=
  { instanceSlot := none, initializedFlag := false, nextObjId := 0 }

/-- `_get_db_path`: the default is `data/db/gym_schedule.db` under the
working directory (the `mkdir` side effect is not modelled). -/
def get_db_path (db_path : Option String) : String :=
  match db_path with
  | none => "data/db/gym_schedule.db"
  | some p => p

/-- `GymScheduleDatabase.__new__(cls)`: reuse `_instance` when set, else
allocate a fresh object and store it in `_instance`. -/
def GymScheduleDatabase_dunder_new (s : SingletonState) : DbInstance × SingletonState :=
  match s.instanceSlot with
  | some i => (i, s)
  | none =>
    let i : DbInstance := { objId := s.nextObjId, db_path := none }
    (i, { s with instanceSlot := some i, nextObjId := s.nextObjId + 1 })

/-- `GymScheduleDatabase.__init__(self, db_path=None)`: only the first
initialization runs the body (`_initialized` guard); it sets
`self.db_path` via `_get_db_path` and flips `_initialized`.  The updated
object is also what `_instance` aliases. -/
def GymScheduleDatabase_dunder_init (s : SingletonState) (i : DbInstance)
    (db_path : Option String) : DbInstance × SingletonState :=
  if s.initializedFlag then (i, s)
  else
    let i' := { i with db_path := some (get_db_path db_path) }
    (i', { s with instanceSlot := some i', initializedFlag := true })

/-- Calling the class, `GymScheduleDatabase(...)`.  `arg = some p` models a
call that passes a `db_path` argument (positionally or by keyword): Python
forwards constructor arguments to `cls.__new__`, and the overridden
`__new__(cls)` accepts none, so the call raises
`TypeError: __new__() takes 1 positional argument but 2 were given` before
any instance is touched.  A zero-argument call (`arg = none`) runs `__new__`
then `__init__` with `db_path=None`. -/
def GymScheduleDatabase_call (arg : Option String) (s : SingletonState) :
    Except PyExc (DbInstance × SingletonState) :=
  match arg with
  | some _ => .error .typeError
  | none =>
    let (i, s₁) := GymScheduleDatabase_dunder_new s
    .ok (GymScheduleDatabase_dunder_init s₁ i none)

/-- `get_database()`: `return GymScheduleDatabase()`. -/
def get_database (s : SingletonState) : Except PyExc (DbInstance × SingletonState) :=
  GymScheduleDatabase_call none s

/-- `GymScheduleDatabase.reset_instance()`: closes and clears the singleton. -/
def reset_instance (s : SingletonState) : SingletonState :=
  { instanceSlot := none, initializedFlag := false, nextObjId := s.nextObjId }

/-! ### CLI loading step -/

/-- The attribute names defined on `GymScheduleDatabase` (methods of the
class body in `database.py`). -/
def GymScheduleDatabase_method_names : List String :=
  ["__new__", "__init__", "_get_db_path", "_create_database", "load_from_json",
   "query", "query_as_dict", "query_as_models", "execute", "get_all_classes",
   "get_classes_by_date", "get_classes_by_activity", "get_classes_by_day_of_week",
   "get_classes_with_vacancy", "close", "reset_instance"]

/-- `cli.load_aggregated_results_to_db`: `db = get_database()` then
`db.load_delta_from_json_file(aggregated_json_path)`.  Attribute lookup on
the instance raises `AttributeError` when the class defines no such method. -/
def load_aggregated_results_to_db (aggregated_json_path : String) :
    Except PyExc Unit :=
  if GymScheduleDatabase_method_names.contains "load_delta_from_json_file" then
    .ok ()
  else
    .error .attributeError

/-! ### Derived notions used by the statements -/

/-- The rows currently stored under identity key `k`. -/
def rowsWithKey (k : String × String × String) (t : Table) : Table :=
  t.filter (fun r => decide (rowKey r = k))

/-- All identity keys of the table are pairwise distinct (the
`UNIQUE(date, timeslot, activity)` constraint). -/
def keysNodup (t : Table) : Prop :=
  (t.map rowKey).Nodup

/-- The last record of a batch whose identity key is `k`. -/
def lastWithKey (k : String × String × String) : List GymClass → Option GymClass
  | [] => none
  | c :: cs =>
    match lastWithKey k cs with
    | some c' => some c'
    | none => if classKey c = k then some c else none

/-- A run of the tool's history: repeated `load_from_json` calls, each with
its own clock and JSON document, against a Store created empty. -/
def runLoads (batches : List (String × List RawEntry)) : Table :=
  batches.foldl (fun t b => (load_from_json b.1 b.2 t).2) []

/-- The aggregate counts named by the spec (§4.1, `upsert_batch`). -/
structure BatchStats where
  inserted : Nat
  updated : Nat
deriving DecidableEq, Repr

/-- One spec-side `upsert` step, threading the running counts. -/
def upsert_spec_step (now : String) (acc : BatchStats × Table) (c : GymClass) :
    BatchStats × Table :=
  if (acc.2.map rowKey).contains (classKey c) then
    ({ acc.1 with updated := acc.1.updated + 1 }, insertOrReplace now acc.2 c)
  else
    ({ acc.1 with inserted := acc.1.inserted + 1 }, insertOrReplace now acc.2 c)

/-- Modelled from the spec: `upsert_batch(records) -> BatchStats` of §4.1,
which `database.py` does not implement as stated — `upsert` applied one
record at a time in input order, counting Inserted when the identity key is
absent and Updated when it is present.  Used only to compare the spec's
contract against `load_from_json`. -/
def upsert_batch_spec (now : String) (t : Table) (cs : List GymClass) :
    BatchStats × Table :=
  cs.foldl (upsert_spec_step now) (⟨0, 0⟩, t)

/-! ### Concrete fixtures for witnesses and counterexamples -/

/-- A load-time clock value. -/
def exNow : String := "2024-06-01T12:00:00"

/-- A well-formed JSON entry: Yoga with 5 open spots, `modified_at` null. -/
def exRawYoga5 : RawEntry :=
  { date := some "2024-01-15", day_of_week := some "Monday",
    timeslot := some "10:00-11:00", activity := some "Yoga",
    venue := some "Studio A", class_type := some "Group",
    vacancy := some 5, modified_at := some none }

/-- The same class re-extracted with 2 open spots. -/
def exRawYoga2 : RawEntry := { exRawYoga5 with vacancy := some 2 }

/-- `exRawYoga5` after pydantic validation. -/
def exYoga5 : GymClass :=
  { date := "2024-01-15", day_of_week := "Monday", timeslot := "10:00-11:00",
    activity := "Yoga", venue := "Studio A", class_type := "Group",
    vacancy := 5, modified_at := none }

/-- `exRawYoga2` after pydantic validation. -/
def exYoga2 : GymClass := { exYoga5 with vacancy := 2 }

/-- The identity key shared by the Yoga fixtures. -/
def exKey : String × String × String := ("2024-01-15", "10:00-11:00", "Yoga")

/-- A store already holding the Yoga class. -/
def exTableYoga : Table := [toRow exNow exYoga5]

/-- Three fresh entries with pairwise distinct identity keys. -/
def exRawPilates : RawEntry :=
  { exRawYoga5 with activity := some "Pilates", timeslot := some "11:00-12:00" }

def exRawSpin : RawEntry :=
  { exRawYoga5 with activity := some "Spin", timeslot := some "12:00-13:00" }

def exRawBoxing : RawEntry :=
  { exRawYoga5 with activity := some "Boxing", timeslot := some "13:00-14:00" }

/-- Their validated forms. -/
def exPilates : GymClass :=
  { exYoga5 with activity := "Pilates", timeslot := "11:00-12:00" }

def exSpin : GymClass :=
  { exYoga5 with activity := "Spin", timeslot := "12:00-13:00" }

def exBoxing : GymClass :=
  { exYoga5 with activity := "Boxing", timeslot := "13:00-14:00" }

/-- A batch of 3 new records plus 1 duplicate of the already-stored key. -/
def exBatch4 : List RawEntry := [exRawPilates, exRawSpin, exRawBoxing, exRawYoga2]

/-- The batch after validation. -/
def exClasses4 : List GymClass := [exPilates, exSpin, exBoxing, exYoga2]

/-- An entry carrying a caller-supplied `modified_at` timestamp. -/
def exRawStale : RawEntry :=
  { exRawYoga5 with modified_at := some (some "2020-01-01T00:00:00") }

/-- `exRawStale` after validation. -/
def exStale : GymClass :=
  { exYoga5 with modified_at := some "2020-01-01T00:00:00" }

/-- An entry whose required `activity` field is missing. -/
def exRawBad : RawEntry := { exRawYoga5 with activity := none }

/-- Stored rows on two consecutive dates, for the query-ordering fixture. -/
def exRow15 : StoredRow := toRow exNow exYoga5

def exRow16 : StoredRow :=
  { exRow15 with date := "2024-01-16", day_of_week := "Tuesday" }

/-- The singleton state after the first `get_database()` in a fresh process. -/
def exState1 : SingletonState :=
  { instanceSlot := some { objId := 0, db_path := some "data/db/gym_schedule.db" },
    initializedFlag := true, nextObjId := 1 }

/-! ## Helper lemmas about the store -/

theorem rowKey_toRow (now : String) (c : GymClass) :
    rowKey (toRow now c) = classKey c := rfl

theorem keysNodup_insertOrReplace (now : String) (c : GymClass) {t : Table}
    (h : keysNodup t) : keysNodup (insertOrReplace now t c) := by
  unfold keysNodup insertOrReplace
  rw [List.map_append, List.nodup_append]
  refine ⟨((List.filter_sublist t).map rowKey).nodup h, by simp, ?_⟩
  intro k hk1 hk2
  simp only [List.map_cons, List.map_nil, List.mem_cons, List.not_mem_nil, or_false] at hk2
  simp only [List.mem_map, List.mem_filter, decide_eq_true_eq] at hk1
  obtain ⟨r, ⟨_, hne⟩, hkr⟩ := hk1
  exact hne ((hkr.trans hk2).trans (rowKey_toRow now c))

theorem keysNodup_applyBatch (now : String) :
    ∀ (cs : List GymClass) (t : Table), keysNodup t → keysNodup (applyBatch now t cs)
  | [], _, h => h
  | c :: cs, t, h =>
    keysNodup_applyBatch now cs _ (keysNodup_insertOrReplace now c h)

theorem keysNodup_load (now : String) (data : List RawEntry) {t : Table}
    (h : keysNodup t) : keysNodup (load_from_json now data t).2 := by
  unfold load_from_json
  cases hv : validateSchedule now data with
  | none => simpa using h
  | some cs => simpa using keysNodup_applyBatch now cs t h

theorem keysNodup_foldl_loads :
    ∀ (bs : List (String × List RawEntry)) (t : Table), keysNodup t →
      keysNodup (bs.foldl (fun t b => (load_from_json b.1 b.2 t).2) t)
  | [], _, h => h
  | b :: bs, t, h =>
    keysNodup_foldl_loads bs _ (keysNodup_load b.1 b.2 h)

theorem rowsWithKey_insertOrReplace_eq {k : String × String × String} {c : GymClass}
    (h : classKey c = k) (now : String) (t : Table) :
    rowsWithKey k (insertOrReplace now t c) = [toRow now c] := by
  unfold rowsWithKey insertOrReplace
  rw [List.filter_append]
  have h1 : List.filter (fun r => decide (rowKey r = k))
      (List.filter (fun r => decide (rowKey r ≠ classKey c)) t) = [] := by
    rw [List.filter_eq_nil_iff]
    intro r hr
    simp only [List.mem_filter, decide_eq_true_eq] at hr
    simp only [decide_eq_true_eq]
    exact fun heq => hr.2 (heq.trans h.symm)
  rw [h1]
  simp [rowKey_toRow, h]

theorem rowsWithKey_insertOrReplace_ne {k : String × String × String} {c : GymClass}
    (h : classKey c ≠ k) (now : String) (t : Table) :
    rowsWithKey k (insertOrReplace now t c) = rowsWithKey k t := by
  unfold rowsWithKey insertOrReplace
  rw [List.filter_append]
  have h2 : List.filter (fun r => decide (rowKey r = k)) [toRow now c] = [] := by
    simp [rowKey_toRow, h]
  rw [h2, List.append_nil, List.filter_filter]
  apply List.filter_congr
  intro r _
  by_cases hk : rowKey r = k
  · have hne : rowKey r ≠ classKey c := by
      rw [hk]; exact fun e => h e.symm
    simp [hk, hne]
    exact fun e => h e.symm
  · simp [hk]

theorem lastWithKey_eq_none {k : String × String × String} :
    ∀ {cs : List GymClass}, lastWithKey k cs = none → ∀ c ∈ cs, classKey c ≠ k
  | [], _, c, hc => absurd hc (List.not_mem_nil c)
  | c' :: cs, h, c, hc => by
    unfold lastWithKey at h
    cases hcs : lastWithKey k cs with
    | some c'' => rw [hcs] at h; exact absurd h (by simp)
    | none =>
      rw [hcs] at h
      rcases List.mem_cons.mp hc with rfl | hmem
      · intro hk
        rw [if_pos hk] at h
        exact absurd h (by simp)
      · exact lastWithKey_eq_none hcs c hmem

theorem rowsWithKey_applyBatch_absent {k : String × String × String} (now : String) :
    ∀ {cs : List GymClass} (t : Table), (∀ c ∈ cs, classKey c ≠ k) →
      rowsWithKey k (applyBatch now t cs) = rowsWithKey k t
  | [], _, _ => rfl
  | c :: cs, t, h => by
    have htail := rowsWithKey_applyBatch_absent now (insertOrReplace now t c)
      (fun c' hc' => h c' (List.mem_cons_of_mem c hc'))
    calc rowsWithKey k (applyBatch now t (c :: cs))
        = rowsWithKey k (applyBatch now (insertOrReplace now t c) cs) := rfl
      _ = rowsWithKey k (insertOrReplace now t c) := htail
      _ = rowsWithKey k t := rowsWithKey_insertOrReplace_ne (h c (List.mem_cons_self c cs)) now t

theorem rowsWithKey_applyBatch_last {k : String × String × String} {c : GymClass}
    (now : String) :
    ∀ {cs : List GymClass} (t : Table), lastWithKey k cs = some c →
      rowsWithKey k (applyBatch now t cs) = [toRow now c]
  | [], _, h => absurd h (by simp [lastWithKey])
  | c' :: cs, t, h => by
    unfold lastWithKey at h
    cases hcs : lastWithKey k cs with
    | some c'' =>
      rw [hcs] at h
      have : c'' = c := by simpa using h
      subst this
      exact rowsWithKey_applyBatch_last now (insertOrReplace now t c') hcs
    | none =>
      rw [hcs] at h
      by_cases hk : classKey c' = k
      · rw [if_pos hk] at h
        have : c' = c := by simpa using h
        subst this
        calc rowsWithKey k (applyBatch now t (c' :: cs))
            = rowsWithKey k (applyBatch now (insertOrReplace now t c') cs) := rfl
          _ = rowsWithKey k (insertOrReplace now t c') :=
              rowsWithKey_applyBatch_absent now _ (lastWithKey_eq_none hcs)
          _ = [toRow now c'] := rowsWithKey_insertOrReplace_eq hk now t
      · rw [if_neg hk] at h
        exact absurd h (by simp)

theorem validateSchedule_eq_none (now : String) :
    ∀ {data : List RawEntry}, (∃ e ∈ data, validateEntry now e = none) →
      validateSchedule now data = none
  | [], h => absurd h (by simp)
  | e :: es, h => by
    rcases h with ⟨e', he', hbad⟩
    rcases List.mem_cons.mp he' with rfl | hmem
    · unfold validateSchedule
      rw [hbad]
    · unfold validateSchedule
      rw [validateSchedule_eq_none now ⟨e', hmem, hbad⟩]
      cases validateEntry now e <;> rfl

theorem upsert_spec_step_total (now : String) :
    ∀ (cs : List GymClass) (acc : BatchStats × Table),
      (cs.foldl (upsert_spec_step now) acc).1.inserted
          + (cs.foldl (upsert_spec_step now) acc).1.updated
        = acc.1.inserted + acc.1.updated + cs.length
  | [], _ => rfl
  | c :: cs, acc => by
    have ih := upsert_spec_step_total now cs (upsert_spec_step now acc c)
    rw [List.foldl_cons, ih]
    unfold upsert_spec_step
    by_cases hmem : (acc.2.map rowKey).contains (classKey c)
    · rw [if_pos hmem]; simp; omega
    · rw [if_neg hmem]; simp; omega

/-! ## Helper lemmas about the BINARY-collation order -/

theorem char_eq_of_toNat_eq {a b : Char} (h : a.toNat = b.toNat) : a = b := by
  apply Char.eq_of_val_eq
  apply UInt32.ext
  exact h

theorem charListLT_cons_cons (a b : Char) (as bs : List Char) :
    charListLT (a :: as) (b :: bs) = true ↔
      a.toNat < b.toNat ∨ (a.toNat = b.toNat ∧ charListLT as bs = true) := by
  by_cases h1 : a.toNat < b.toNat
  · simp [charListLT, h1]
  · by_cases h2 : a.toNat = b.toNat
    · simp [charListLT, h1, h2]
    · simp [charListLT, h1, h2]

theorem charListLT_trans :
    ∀ {as bs cs : List Char}, charListLT as bs = true → charListLT bs cs = true →
      charListLT as cs = true
  | [], bs, cs, h1, h2 => by
    cases bs with
    | nil => simp [charListLT] at h1
    | cons b bs' =>
      cases cs with
      | nil => simp [charListLT] at h2
      | cons c cs' => simp [charListLT]
  | a :: as, bs, cs, h1, h2 => by
    cases bs with
    | nil => simp [charListLT] at h1
    | cons b bs' =>
      cases cs with
      | nil => simp [charListLT] at h2
      | cons c cs' =>
        rw [charListLT_cons_cons] at h1 h2 ⊢
        rcases h1 with h1 | ⟨h1e, h1t⟩ <;> rcases h2 with h2 | ⟨h2e, h2t⟩
        · exact Or.inl (by omega)
        · exact Or.inl (by omega)
        · exact Or.inl (by omega)
        · exact Or.inr ⟨by omega, charListLT_trans h1t h2t⟩

theorem charListLT_connex :
    ∀ {as bs : List Char}, charListLT as bs = false → charListLT bs as = false → as = bs
  | [], [], _, _ => rfl
  | [], _ :: _, h1, _ => by simp [charListLT] at h1
  | _ :: _, [], _, h2 => by simp [charListLT] at h2
  | a :: as, b :: bs, h1, h2 => by
    have h1' : ¬(a.toNat < b.toNat ∨ (a.toNat = b.toNat ∧ charListLT as bs = true)) := by
      rw [← charListLT_cons_cons]
      simp [h1]
    have h2' : ¬(b.toNat < a.toNat ∨ (b.toNat = a.toNat ∧ charListLT bs as = true)) := by
      rw [← charListLT_cons_cons]
      simp [h2]
    push_neg at h1' h2'
    have heq : a.toNat = b.toNat := by omega
    have htail : as = bs := by
      apply charListLT_connex
      · have := h1'.2 heq
        simpa using this
      · have := h2'.2 heq.symm
        simpa using this
    rw [char_eq_of_toNat_eq heq, htail]

theorem strLT_trans {a b c : String} (h1 : strLT a b = true) (h2 : strLT b c = true) :
    strLT a c = true :=
  charListLT_trans h1 h2

theorem str_eq_of_not_lt {a b : String} (h1 : strLT a b = false)
    (h2 : strLT b a = false) : a = b := by
  exact String.ext (charListLT_connex h1 h2)

theorem strLE_total (a b : String) : strLE a b = true ∨ strLE b a = true := by
  unfold strLE
  cases hab : strLT a b with
  | true => exact Or.inl (by simp)
  | false =>
    cases hba : strLT b a with
    | true => exact Or.inr (by simp)
    | false => exact Or.inl (by simp [str_eq_of_not_lt hab hba])

theorem rowLE_total (a b : StoredRow) : rowLE a b ∨ rowLE b a := by
  unfold rowLE rowLEb
  cases hab : strLT a.date b.date with
  | true => exact Or.inl (by simp)
  | false =>
    cases hba : strLT b.date a.date with
    | true => exact Or.inr (by simp)
    | false =>
      have hd : a.date = b.date := str_eq_of_not_lt hab hba
      rcases strLE_total a.timeslot b.timeslot with h | h
      · exact Or.inl (by simp [hd, h])
      · exact Or.inr (by simp [hd.symm, h])

theorem rowLE_trans {a b c : StoredRow} (h1 : rowLE a b) (h2 : rowLE b c) : rowLE a c := by
  unfold rowLE rowLEb at *
  simp only [Bool.or_eq_true, Bool.and_eq_true, decide_eq_true_eq] at h1 h2 ⊢
  rcases h1 with h1 | ⟨h1d, h1t⟩ <;> rcases h2 with h2 | ⟨h2d, h2t⟩
  · exact Or.inl (strLT_trans h1 h2)
  · exact Or.inl (h2d ▸ h1)
  · exact Or.inl (h1d ▸ h2)
  · refine Or.inr ⟨h1d.trans h2d, ?_⟩
    unfold strLE at *
    simp only [Bool.or_eq_true, decide_eq_true_eq] at h1t h2t ⊢
    rcases h1t with h1t | h1t <;> rcases h2t with h2t | h2t
    · exact Or.inl (strLT_trans h1t h2t)
    · exact Or.inl (h2t ▸ h1t)
    · exact Or.inl (h1t ▸ h2t)
    · exact Or.inr (h1t.trans h2t)

/-! ## Helper lemmas about substring containment -/

theorem listStartsWith_iff :
    ∀ {p s : List Char}, listStartsWith p s = true ↔ p <+: s
  | [], s => by simp [listStartsWith]
  | a :: as, [] => by simp [listStartsWith]
  | a :: as, b :: bs => by
    rw [listStartsWith, Bool.and_eq_true, decide_eq_true_eq, List.cons_prefix_cons]
    exact and_congr Iff.rfl listStartsWith_iff

theorem listContainsSub_iff :
    ∀ {p s : List Char}, listContainsSub p s = true ↔ p <:+: s
  | p, [] => by
    rw [listContainsSub, List.isEmpty_iff, List.infix_nil]
  | p, b :: bs => by
    rw [listContainsSub, Bool.or_eq_true, List.infix_cons_iff]
    exact or_congr listStartsWith_iff listContainsSub_iff

/-! ## Helper lemmas about SQLite LIKE matching -/

theorem likeMatchFuel_congr :
    ∀ (n : Nat) (m : Nat) (ps t : List Char), ps.length + t.length < n →
      ps.length + t.length < m → likeMatchFuel n ps t = likeMatchFuel m ps t := by
  intro n
  induction n with
  | zero => intro m ps t h1 _; exact absurd h1 (by omega)
  | succ n ih =>
    intro m ps t h1 h2
    cases m with
    | zero => exact absurd h2 (by omega)
    | succ m =>
      cases ps with
      | nil => rfl
      | cons p ps =>
        simp only [List.length_cons] at h1 h2
        by_cases hp : p = '%'
        · cases t with
          | nil =>
            simp only [likeMatchFuel, if_pos hp]
            exact ih m ps [] (by simp only [List.length_nil]; omega)
              (by simp only [List.length_nil]; omega)
          | cons c ts =>
            simp only [likeMatchFuel, if_pos hp]
            rw [ih m ps (c :: ts) (by simp only [List.length_cons] at h1 ⊢; omega)
                (by simp only [List.length_cons] at h2 ⊢; omega),
              ih m (p :: ps) ts (by simp only [List.length_cons] at h1 ⊢; omega)
                (by simp only [List.length_cons] at h2 ⊢; omega)]
        · cases t with
          | nil => simp only [likeMatchFuel, if_neg hp]
          | cons c ts =>
            simp only [likeMatchFuel, if_neg hp]
            by_cases hu : p = '_'
            · simp only [if_pos hu]
              exact ih m ps ts (by simp only [List.length_cons] at h1; omega)
                (by simp only [List.length_cons] at h2; omega)
            · simp only [if_neg hu]
              rw [ih m ps ts (by simp only [List.length_cons] at h1; omega)
                (by simp only [List.length_cons] at h2; omega)]

theorem likeMatch_eq_fuel (fuel : Nat) (ps t : List Char)
    (h : ps.length + t.length < fuel) : likeMatchFuel fuel ps t = likeMatch ps t :=
  likeMatchFuel_congr fuel (ps.length + t.length + 1) ps t h (by omega)

theorem likeMatch_nil_pat (t : List Char) : likeMatch [] t = t.isEmpty := rfl

theorem likeMatchFuel_succ_cons (fuel : Nat) (p : Char) (ps t : List Char) :
    likeMatchFuel (fuel + 1) (p :: ps) t =
      if p = '%' then
        match t with
        | [] => likeMatchFuel fuel ps []
        | c :: ts => likeMatchFuel fuel ps (c :: ts) || likeMatchFuel fuel (p :: ps) ts
      else
        match t with
        | [] => false
        | c :: ts =>
          if p = '_' then likeMatchFuel fuel ps ts
          else decide (asciiLowerChar p = asciiLowerChar c) && likeMatchFuel fuel ps ts := rfl

theorem likeMatch_pct_nil (ps : List Char) :
    likeMatch ('%' :: ps) [] = likeMatch ps [] := by
  show likeMatchFuel (('%' :: ps).length + ([] : List Char).length + 1) ('%' :: ps) [] = _
  rw [likeMatchFuel_succ_cons, if_pos rfl]
  exact likeMatch_eq_fuel _ ps []
    (by simp only [List.length_cons, List.length_nil]; omega)

theorem likeMatch_pct_cons (ps : List Char) (c : Char) (ts : List Char) :
    likeMatch ('%' :: ps) (c :: ts)
      = (likeMatch ps (c :: ts) || likeMatch ('%' :: ps) ts) := by
  show likeMatchFuel (('%' :: ps).length + (c :: ts).length + 1) ('%' :: ps) (c :: ts) = _
  rw [likeMatchFuel_succ_cons, if_pos rfl]
  show (likeMatchFuel (('%' :: ps).length + (c :: ts).length) ps (c :: ts)
      || likeMatchFuel (('%' :: ps).length + (c :: ts).length) ('%' :: ps) ts) = _
  rw [likeMatch_eq_fuel _ ps (c :: ts) (by simp only [List.length_cons]; omega),
    likeMatch_eq_fuel _ ('%' :: ps) ts (by simp only [List.length_cons]; omega)]

theorem likeMatch_ne_pct_nil {p : Char} (hp : p ≠ '%') (ps : List Char) :
    likeMatch (p :: ps) [] = false := by
  show likeMatchFuel ((p :: ps).length + ([] : List Char).length + 1) (p :: ps) [] = false
  rw [likeMatchFuel_succ_cons, if_neg hp]

theorem likeMatch_lit_cons {p : Char} (hp : p ≠ '%') (hu : p ≠ '_')
    (ps : List Char) (c : Char) (ts : List Char) :
    likeMatch (p :: ps) (c :: ts)
      = (decide (asciiLowerChar p = asciiLowerChar c) && likeMatch ps ts) := by
  show likeMatchFuel ((p :: ps).length + (c :: ts).length + 1) (p :: ps) (c :: ts) = _
  rw [likeMatchFuel_succ_cons, if_neg hp]
  show (if p = '_' then likeMatchFuel ((p :: ps).length + (c :: ts).length) ps ts
      else decide (asciiLowerChar p = asciiLowerChar c)
        && likeMatchFuel ((p :: ps).length + (c :: ts).length) ps ts) = _
  rw [if_neg hu, likeMatch_eq_fuel _ ps ts (by simp only [List.length_cons]; omega)]

theorem likeMatch_pct_any : ∀ T : List Char, likeMatch ['%'] T = true
  | [] => by rw [likeMatch_pct_nil]; rfl
  | c :: ts => by
    rw [likeMatch_pct_cons]
    simp [likeMatch_pct_any ts]

theorem likeMatch_append_pct :
    ∀ (P : List Char), (∀ x ∈ P, x ≠ '%' ∧ x ≠ '_') → ∀ T : List Char,
      (likeMatch (P ++ ['%']) T = true ↔
        (P.map asciiLowerChar) <+: (T.map asciiLowerChar))
  | [], _, T => by
    simp only [List.nil_append, List.map_nil]
    simp [likeMatch_pct_any T, List.nil_prefix]
  | p :: P, hw, T => by
    have hp := (hw p (List.mem_cons_self p P)).1
    have hu := (hw p (List.mem_cons_self p P)).2
    cases T with
    | nil =>
      rw [List.cons_append, likeMatch_ne_pct_nil hp]
      simp
    | cons c ts =>
      rw [List.cons_append, likeMatch_lit_cons hp hu]
      simp only [List.map_cons, List.cons_prefix_cons, Bool.and_eq_true, decide_eq_true_eq]
      exact and_congr Iff.rfl
        (likeMatch_append_pct P (fun x hx => hw x (List.mem_cons_of_mem p hx)) ts)

theorem likeMatch_pct_infix :
    ∀ (T P : List Char), (∀ x ∈ P, x ≠ '%' ∧ x ≠ '_') →
      (likeMatch ('%' :: (P ++ ['%'])) T = true ↔
        (P.map asciiLowerChar) <:+: (T.map asciiLowerChar))
  | [], P, hw => by
    rw [likeMatch_pct_nil, likeMatch_append_pct P hw []]
    simp only [List.map_nil]
    rw [List.prefix_nil, List.infix_nil]
  | c :: ts, P, hw => by
    rw [likeMatch_pct_cons, Bool.or_eq_true, likeMatch_append_pct P hw (c :: ts),
      likeMatch_pct_infix ts P hw]
    simp only [List.map_cons]
    exact (List.infix_cons_iff).symm

theorem likeContains_iff_substring {a : String}
    (hw : ∀ c ∈ a.data, c ≠ '%' ∧ c ≠ '_') (text : String) :
    likeContains text a = true ↔
      (a.data.map asciiLowerChar) <:+: (text.data.map asciiLowerChar) := by
  unfold likeContains
  exact likeMatch_pct_infix text.data a.data hw

/-! ## Claim theorems -/

/-- C1: after any sequence of `load_from_json` batch upserts applied to a
Store created empty, the table holds at most one row per identity key
`(date, timeslot, activity)` — the keys of the stored rows are pairwise
distinct — and the identity key is insensitive to `venue`, `class_type`,
`vacancy` and `day_of_week`, so records differing only in those fields
share a key and collapse into a single stored row. -/
theorem store_unique_per_identity_key :
    ∀ batches : List (String × List RawEntry),
      keysNodup (runLoads batches) ∧
      ∀ (c : GymClass) (v ct : String) (vac : Int) (dow : String),
        classKey { c with venue := v, class_type := ct, vacancy := vac, day_of_week := dow }
          = classKey c :=
  fun batches =>
    ⟨keysNodup_foldl_loads batches [] (by simp [keysNodup]),
     fun _ _ _ _ _ => rfl⟩

/-- C2: after a `load_from_json` batch upsert, the rows stored under any
identity key occurring in the validated batch are exactly the single row
written wholesale from the last record of the batch with that key (no
field-level merge). -/
theorem load_last_write_wins (now : String) (data : List RawEntry)
    (cs : List GymClass) (t : Table) (k : String × String × String) (c : GymClass)
    (hv : validateSchedule now data = some cs) (hl : lastWithKey k cs = some c) :
    rowsWithKey k (load_from_json now data t).2 = [toRow now c] := by
  unfold load_from_json
  rw [hv]
  exact rowsWithKey_applyBatch_last now t hl

/-- C2 witness: the batch `[Yoga(vacancy=5), Yoga(vacancy=2)]` with one
shared identity key leaves exactly one stored row, with `vacancy = 2`. -/
theorem load_last_write_wins_witness :
    rowsWithKey exKey (load_from_json exNow [exRawYoga5, exRawYoga2] []).2
        = [toRow exNow exYoga2] ∧
      ((load_from_json exNow [exRawYoga5, exRawYoga2] []).2.map StoredRow.vacancy) = [2] :=
  ⟨load_last_write_wins exNow [exRawYoga5, exRawYoga2] [exYoga5, exYoga2] [] exKey
      exYoga2 (by decide) (by decide),
    by decide⟩

/-- C3 counterexample: `load_from_json` does not return two separate
counts.  On a batch of 3 new records plus 1 duplicate of an existing key it
returns the single total `4` — and it returns the same `4` against an empty
store, although the spec-side statistics differ (`{3, 1}` versus `{4, 0}`),
so the returned value cannot carry the inserted/updated split. -/
theorem load_returns_single_total_count :
    validateSchedule exNow exBatch4 = some exClasses4 ∧
    (load_from_json exNow exBatch4 exTableYoga).1 = .ok 4 ∧
    (load_from_json exNow exBatch4 []).1 = .ok 4 ∧
    (upsert_batch_spec exNow exTableYoga exClasses4).1 = ⟨3, 1⟩ ∧
    (upsert_batch_spec exNow [] exClasses4).1 = ⟨4, 0⟩ ∧
    (⟨3, 1⟩ : BatchStats) ≠ (⟨4, 0⟩ : BatchStats) :=
  ⟨by decide, rfl, rfl, by decide, by decide, by decide⟩

/-- C3 amended: `load_from_json` returns one aggregate count equal to the
total number of records in the validated batch, which is the sum of the
spec-side inserted and updated counts but without the split. -/
theorem load_count_is_batch_total (now : String) (data : List RawEntry) (t : Table)
    (cs : List GymClass) (hv : validateSchedule now data = some cs) :
    (load_from_json now data t).1 = .ok cs.length ∧
      cs.length = (upsert_batch_spec now t cs).1.inserted
        + (upsert_batch_spec now t cs).1.updated := by
  constructor
  · unfold load_from_json
    rw [hv]
  · have h0 : (cs.foldl (upsert_spec_step now) (⟨0, 0⟩, t)).1.inserted
          + (cs.foldl (upsert_spec_step now) (⟨0, 0⟩, t)).1.updated
        = 0 + 0 + cs.length := upsert_spec_step_total now cs (⟨0, 0⟩, t)
    unfold upsert_batch_spec
    omega

/-- C3 amended witness: 3 new records plus 1 duplicate yield the single
count `4`, which is `3 + 1`. -/
theorem load_count_is_batch_total_witness :
    (load_from_json exNow exBatch4 exTableYoga).1 = .ok (exClasses4.length) ∧
      exClasses4.length = (upsert_batch_spec exNow exTableYoga exClasses4).1.inserted
        + (upsert_batch_spec exNow exTableYoga exClasses4).1.updated :=
  load_count_is_batch_total exNow exBatch4 exTableYoga exClasses4 (by decide)

/-- C4 counterexample: a caller-supplied `modified_at` does determine the
stored value — loading a record carrying `modified_at = 2020-01-01T00:00:00`
at clock `exNow = 2024-06-01T12:00:00` stores the caller's timestamp, not a
Store-assigned one. -/
theorem stored_modified_at_from_caller :
    ((load_from_json exNow [exRawStale] []).2.map StoredRow.modified_at)
        = ["2020-01-01T00:00:00"] ∧
      "2020-01-01T00:00:00" ≠ exNow :=
  ⟨by decide, by decide⟩

/-- C4 amended: the stored `modified_at` under a key is the incoming
record's `modified_at` whenever that field is set; the Store assigns the
current load time only when the incoming value is `None`
(`Option.getD`). -/
theorem stored_modified_at_last_record (now : String) (data : List RawEntry) (t : Table)
    (cs : List GymClass) (k : String × String × String) (c : GymClass)
    (hv : validateSchedule now data = some cs) (hl : lastWithKey k cs = some c) :
    (rowsWithKey k (load_from_json now data t).2).map StoredRow.modified_at
      = [c.modified_at.getD now] := by
  unfold load_from_json
  rw [hv]
  rw [rowsWithKey_applyBatch_last now t hl]
  simp only [List.map_cons, List.map_nil]
  congr 1
  unfold toRow
  cases c.modified_at <;> rfl

/-- C4 amended witness: the stale caller timestamp is what ends up
stored. -/
theorem stored_modified_at_last_record_witness :
    (rowsWithKey exKey (load_from_json exNow [exRawStale] []).2).map StoredRow.modified_at
      = ["2020-01-01T00:00:00"] :=
  stored_modified_at_last_record exNow [exRawStale] [] [exStale] exKey exStale
    (by decide) (by decide)

/-- C5: on a directory holding one unreadable source and one good source,
`parse` swallows the exception and returns `None`, whereupon the
aggregator's `all_classes.extend(None)` raises `TypeError` and the whole
pass aborts — the good source's records are lost, although that source
alone aggregates fine. -/
theorem aggregator_aborts_on_unreadable_source :
    GymScheduleParser_parse exNow .unreadable = none ∧
    aggregate_json_files exNow
        [("a.json", .unreadable), ("b.json", .withClasses [exRawYoga5])]
      = .error .typeError ∧
    aggregate_json_files exNow [("b.json", .withClasses [exRawYoga5])]
      = .ok [exYoga5] :=
  ⟨rfl, rfl, rfl⟩

/-- C6: when any entry of the batch fails validation, `load_from_json`
raises `ValidationError` to the caller and the table is unchanged — no
record of the batch is applied, because `GymSchedule(**data)` validates the
whole document before the first SQL statement runs. -/
theorem validation_error_preserves_store (now : String) (data : List RawEntry)
    (t : Table) (h : ∃ e ∈ data, validateEntry now e = none) :
    (load_from_json now data t).1 = .error .validationError ∧
      (load_from_json now data t).2 = t := by
  unfold load_from_json
  rw [validateSchedule_eq_none now h]
  exact ⟨rfl, rfl⟩

/-- C6 witness: a batch with a missing `activity` field errors out and
leaves the populated store untouched. -/
theorem validation_error_preserves_store_witness :
    (load_from_json exNow [exRawBad] exTableYoga).1 = .error .validationError ∧
      (load_from_json exNow [exRawBad] exTableYoga).2 = exTableYoga :=
  validation_error_preserves_store exNow [exRawBad] exTableYoga
    ⟨exRawBad, by decide, by decide⟩

/-- C7: `get_all_classes` returns every stored row, ordered by
`(date, timeslot)` ascending (a sorted permutation of the table); in
particular, with rows dated 2024-01-16 and 2024-01-15 both stored, the
2024-01-15 row comes first. -/
theorem get_all_sorted_by_date_timeslot :
    ∀ t : Table,
      List.Sorted rowLE (get_all_classes t) ∧
      List.Perm (get_all_classes t) t ∧
      get_all_classes [exRow16, exRow15] = [exRow15, exRow16] := by
  intro t
  haveI htot : IsTotal StoredRow rowLE := ⟨rowLE_total⟩
  haveI htrans : IsTrans StoredRow rowLE := ⟨fun _ _ _ => rowLE_trans⟩
  exact ⟨List.sorted_insertionSort rowLE t, List.perm_insertionSort rowLE t, by decide⟩

/-- C8 counterexample: the query string is spliced into the `LIKE` pattern
with its wildcards active, so the claimed pure-substring reading fails:
`get_classes_by_activity "%"` returns the stored Yoga row although its
activity does not contain `%` as a substring. -/
theorem get_by_activity_wildcard_not_substring :
    get_classes_by_activity "%" [exRow15] = [exRow15] ∧
      ¬(("%".data.map asciiLowerChar) <:+: (exRow15.activity.data.map asciiLowerChar)) :=
  ⟨by decide, by rw [← listContainsSub_iff]; decide⟩

/-- C8 amended: for every query string free of the `LIKE` wildcards `%`
and `_`, `get_classes_by_activity` returns exactly the stored rows whose
`activity` contains the string as an ASCII-case-insensitive substring
(SQLite's default `LIKE` policy), ordered by `(date, timeslot)` ascending;
the pattern `"yoga"` matches activity `"Yoga"`. -/
theorem get_by_activity_substring_no_wildcard (t : Table) (a : String)
    (hw : ∀ c ∈ a.data, c ≠ '%' ∧ c ≠ '_') :
    List.Sorted rowLE (get_classes_by_activity a t) ∧
      List.Perm (get_classes_by_activity a t)
        (t.filter (fun r => likeContains r.activity a)) ∧
      (∀ r : StoredRow, r ∈ get_classes_by_activity a t ↔
        r ∈ t ∧ (a.data.map asciiLowerChar) <:+: (r.activity.data.map asciiLowerChar)) ∧
      likeContains "Yoga" "yoga" = true := by
  haveI htot : IsTotal StoredRow rowLE := ⟨rowLE_total⟩
  haveI htrans : IsTrans StoredRow rowLE := ⟨fun _ _ _ => rowLE_trans⟩
  refine ⟨List.sorted_insertionSort rowLE _, List.perm_insertionSort rowLE _, ?_, by decide⟩
  intro r
  unfold get_classes_by_activity
  rw [(List.perm_insertionSort rowLE _).mem_iff, List.mem_filter]
  exact and_congr Iff.rfl (likeContains_iff_substring hw r.activity)

/-- C8 amended witness: the wildcard-free query `"yoga"` against a store
holding the Yoga row. -/
theorem get_by_activity_substring_no_wildcard_witness :
    List.Sorted rowLE (get_classes_by_activity "yoga" [exRow15]) ∧
      List.Perm (get_classes_by_activity "yoga" [exRow15])
        ([exRow15].filter (fun r => likeContains r.activity "yoga")) ∧
      (∀ r : StoredRow, r ∈ get_classes_by_activity "yoga" [exRow15] ↔
        r ∈ [exRow15] ∧
          ("yoga".data.map asciiLowerChar) <:+: (r.activity.data.map asciiLowerChar)) ∧
      likeContains "Yoga" "yoga" = true :=
  get_by_activity_substring_no_wildcard [exRow15] "yoga" (by decide)

/-- C9 counterexample: in a fresh process the first `get_database()` builds
the singleton with the default path, but a later construction that passes a
`db_path` argument does not return that instance with the argument ignored —
it raises `TypeError`, because the overridden `__new__(cls)` accepts no
extra argument. -/
theorem db_path_construction_raises_type_error :
    get_database initialSingletonState
        = .ok ({ objId := 0, db_path := some "data/db/gym_schedule.db" }, exState1) ∧
      GymScheduleDatabase_call (some "/tmp/custom.db") exState1 = .error .typeError :=
  ⟨rfl, rfl⟩

/-- C9 amended: once initialized, every zero-argument construction and
every `get_database()` call returns the identical singleton instance and
leaves the state (including the backing path chosen at first
initialization) unchanged, until `reset_instance()` clears it; a
construction passing a `db_path` argument never succeeds — it raises
`TypeError`, so a caller-supplied path can never take effect. -/
theorem singleton_zero_arg_construction (s : SingletonState) (i : DbInstance)
    (h1 : s.instanceSlot = some i) (h2 : s.initializedFlag = true) :
    GymScheduleDatabase_call none s = .ok (i, s) ∧
      get_database s = .ok (i, s) ∧
      (∀ p : String, GymScheduleDatabase_call (some p) s = .error .typeError) ∧
      reset_instance s
        = { instanceSlot := none, initializedFlag := false, nextObjId := s.nextObjId } := by
  have hcall : GymScheduleDatabase_call none s = .ok (i, s) := by
    unfold GymScheduleDatabase_call GymScheduleDatabase_dunder_new GymScheduleDatabase_dunder_init
    rw [h1]
    simp [h2]
  exact ⟨hcall, hcall, fun p => rfl, rfl⟩

/-- C9 amended witness: concrete singleton state after first
initialization. -/
theorem singleton_zero_arg_construction_witness :
    GymScheduleDatabase_call none exState1
        = .ok ({ objId := 0, db_path := some "data/db/gym_schedule.db" }, exState1) ∧
      get_database exState1
        = .ok ({ objId := 0, db_path := some "data/db/gym_schedule.db" }, exState1) ∧
      (∀ p : String, GymScheduleDatabase_call (some p) exState1 = .error .typeError) ∧
      reset_instance exState1
        = { instanceSlot := none, initializedFlag := false, nextObjId := exState1.nextObjId } :=
  singleton_zero_arg_construction exState1
    { objId := 0, db_path := some "data/db/gym_schedule.db" } rfl rfl

/-- C10: for every path, the CLI step `load_aggregated_results_to_db`
raises `AttributeError`: it calls `load_delta_from_json_file`, which
`GymScheduleDatabase` does not define (its only loader is
`load_from_json`), so the CLI's database-loading step never succeeds. -/
theorem cli_load_raises_attribute_error :
    ∀ p : String,
      load_aggregated_results_to_db p = .error .attributeError ∧
      GymScheduleDatabase_method_names.contains "load_from_json" = true ∧
      GymScheduleDatabase_method_names.contains "load_delta_from_json_file" = false :=
  fun _ => ⟨rfl, rfl, rfl⟩

end GymTimetable
